import Mathlib

/-!
Verification of the Sous voice-client audio pipeline
(`src/sous/components/VoiceInterface.tsx`, `src/sous/hooks/useRecipes.ts`)
against its natural-language specification.

Modelling conventions:
* `ArrayBuffer`/`DataView` buffers written by the client are modelled as a
  fixed allocation size plus a contents function (`ByteBuf`); received
  network buffers are modelled as `List Nat` byte lists (entries `< 256`).
* 16-bit samples are `Int`; Float32 sample values are `ℚ` (every value
  arising in these code paths is exactly representable in Float32, so the
  rational model is exact).
* JS strings are `List Char`.
-/

namespace Sous

/-! ## Byte buffers (`new ArrayBuffer(n)` + `DataView`) -/

/-- A fixed-size byte buffer: `new ArrayBuffer(n)` allocates `n` zero bytes;
`byteAt i` is the byte stored at offset `i`. -/
structure ByteBuf where
  size : Nat
  byteAt : Nat → Nat

/-- `new ArrayBuffer(n)`: `n` bytes, zero-initialised. -/
def mkBuffer (n : Nat) : ByteBuf := ⟨n, fun _ => 0⟩

/-- `view.setUint8(off, v)`: JS stores `v` modulo 2^8. -/
def setU8 (b : ByteBuf) (off v : Nat) : ByteBuf :=
  ⟨b.size, fun i => if i = off then v % 256 else b.byteAt i⟩

/-- `view.setUint16(off, v, true)` (little-endian): low byte first. -/
def setU16LE (b : ByteBuf) (off v : Nat) : ByteBuf :=
  setU8 (setU8 b off v) (off + 1) (v / 256)

/-- `view.setUint32(off, v, true)` (little-endian): four bytes, low first. -/
def setU32LE (b : ByteBuf) (off v : Nat) : ByteBuf :=
  setU8 (setU8 (setU8 (setU8 b off v) (off + 1) (v / 256))
    (off + 2) (v / 65536)) (off + 3) (v / 16777216)

/-- The byte codes of a JS string (`string.charCodeAt(i)` for each `i`). -/
def strBytes (s : String) : List Nat := s.data.map Char.toNat

/-- Writing consecutive bytes starting at `off` — the loop body of the
source's `writeString` helper. -/
def writeBytes (b : ByteBuf) (off : Nat) : List Nat → ByteBuf
  | [] => b
  | v :: vs => writeBytes (setU8 b off v) (off + 1) vs

/-- `writeString(offset, string)` from `createWavHeader` (lines 13-17):
writes `string.charCodeAt(i)` at `offset + i` for each `i`. -/
def writeStr (b : ByteBuf) (off : Nat) (s : String) : ByteBuf :=
  writeBytes b off (strBytes s)

theorem strBytes_RIFF : strBytes "RIFF" = [82, 73, 70, 70] := rfl

theorem strBytes_WAVE : strBytes "WAVE" = [87, 65, 86, 69] := rfl

theorem strBytes_fmt : strBytes "fmt " = [102, 109, 116, 32] := rfl

theorem strBytes_data : strBytes "data" = [100, 97, 116, 97] := rfl

/-! ## Frame Codec: `createWavHeader` (VoiceInterface.tsx lines 8-34) -/

/-- `createWavHeader(sampleRate, bitsPerSample)` (lines 8-34): a 44-byte
buffer built by the exact write sequence of the source, with
`numChannels = 1`.  `bitsPerSample / 8` is modelled as `Nat` division; it
agrees with the source's JS division whenever `8 ∣ bitsPerSample`
(the program only calls it with `bitsPerSample = 16`). -/
def createWavHeader (sampleRate bitsPerSample : Nat) : ByteBuf :=
  let numChannels := 1
  let buffer := mkBuffer 44
  let buffer := writeStr buffer 0 "RIFF"
  let buffer := setU32LE buffer 4 0
  let buffer := writeStr buffer 8 "WAVE"
  let buffer := writeStr buffer 12 "fmt "
  let buffer := setU32LE buffer 16 16
  let buffer := setU16LE buffer 20 1
  let buffer := setU16LE buffer 22 numChannels
  let buffer := setU32LE buffer 24 sampleRate
  let buffer := setU32LE buffer 28 (sampleRate * numChannels * (bitsPerSample / 8))
  let buffer := setU16LE buffer 32 (numChannels * (bitsPerSample / 8))
  let buffer := setU16LE buffer 34 bitsPerSample
  let buffer := writeStr buffer 36 "data"
  let buffer := setU32LE buffer 40 0
  buffer

/-- Little-endian 16-bit read-back. -/
def getU16LE (b : ByteBuf) (off : Nat) : Nat :=
  b.byteAt off + 256 * b.byteAt (off + 1)

/-- Little-endian 32-bit read-back. -/
def getU32LE (b : ByteBuf) (off : Nat) : Nat :=
  b.byteAt off + 256 * (b.byteAt (off + 1) + 256 *
    (b.byteAt (off + 2) + 256 * b.byteAt (off + 3)))

/-- The four bytes at offsets `off..off+3`, as a list (for comparing ASCII
tags). -/
def tagAt (b : ByteBuf) (off : Nat) : List Nat :=
  [b.byteAt off, b.byteAt (off + 1), b.byteAt (off + 2), b.byteAt (off + 3)]

/-- The contents of `createWavHeader`, resolved to one piecewise expression
per offset. -/
theorem createWavHeader_byteAt (sr bps i : Nat) :
    (createWavHeader sr bps).byteAt i =
      if i = 43 then 0 else if i = 42 then 0 else if i = 41 then 0 else
      if i = 40 then 0 else
      if i = 39 then 97 else if i = 38 then 116 else if i = 37 then 97 else
      if i = 36 then 100 else
      if i = 35 then bps / 256 % 256 else if i = 34 then bps % 256 else
      if i = 33 then 1 * (bps / 8) / 256 % 256 else
      if i = 32 then 1 * (bps / 8) % 256 else
      if i = 31 then sr * 1 * (bps / 8) / 16777216 % 256 else
      if i = 30 then sr * 1 * (bps / 8) / 65536 % 256 else
      if i = 29 then sr * 1 * (bps / 8) / 256 % 256 else
      if i = 28 then sr * 1 * (bps / 8) % 256 else
      if i = 27 then sr / 16777216 % 256 else
      if i = 26 then sr / 65536 % 256 else
      if i = 25 then sr / 256 % 256 else
      if i = 24 then sr % 256 else
      if i = 23 then 0 else if i = 22 then 1 else
      if i = 21 then 0 else if i = 20 then 1 else
      if i = 19 then 0 else if i = 18 then 0 else if i = 17 then 0 else
      if i = 16 then 16 else
      if i = 15 then 32 else if i = 14 then 116 else if i = 13 then 109 else
      if i = 12 then 102 else
      if i = 11 then 69 else if i = 10 then 86 else if i = 9 then 65 else
      if i = 8 then 87 else
      if i = 7 then 0 else if i = 6 then 0 else if i = 5 then 0 else
      if i = 4 then 0 else
      if i = 3 then 70 else if i = 2 then 70 else if i = 1 then 73 else
      if i = 0 then 82 else 0 := by
  simp only [createWavHeader, writeStr, strBytes_RIFF, strBytes_WAVE, strBytes_fmt,
    strBytes_data, writeBytes, setU32LE, setU16LE, setU8, mkBuffer]
  norm_num [show 'R'.toNat = 82 from rfl, show 'I'.toNat = 73 from rfl,
    show 'F'.toNat = 70 from rfl, show 'W'.toNat = 87 from rfl,
    show 'A'.toNat = 65 from rfl, show 'V'.toNat = 86 from rfl,
    show 'E'.toNat = 69 from rfl, show 'f'.toNat = 102 from rfl,
    show 'm'.toNat = 109 from rfl, show 't'.toNat = 116 from rfl,
    show ' '.toNat = 32 from rfl, show 'd'.toNat = 100 from rfl,
    show 'a'.toNat = 97 from rfl]

/-! ## Frame Codec: `isWavFile` (VoiceInterface.tsx lines 216-222) -/

/-- The four bytes `view.getUint8(off) .. view.getUint8(off+3)` of a received
buffer (out-of-range reads yield 0; they never decide the result here). -/
def bytesAt4 (data : List Nat) (off : Nat) : List Nat :=
  [data.getD off 0, data.getD (off + 1) 0, data.getD (off + 2) 0, data.getD (off + 3) 0]

/-- `isWavFile(data)`: `false` for buffers shorter than 12 bytes, otherwise
compares the strings built from bytes 0-3 and 8-11 against `'RIFF'` and
`'WAVE'`.  Received buffers are byte lists. -/
def isWavFile (data : List Nat) : Bool :=
  if data.length < 12 then false
  else decide (bytesAt4 data 0 = strBytes "RIFF") &&
       decide (bytesAt4 data 8 = strBytes "WAVE")

/-- C2: for every valid `(sampleRate, bitsPerSample)` pair (values in field
range, `bitsPerSample` a whole number of bytes), `createWavHeader` returns a
44-byte buffer with the ASCII tags `"RIFF"`, `"WAVE"`, `"fmt "`, `"data"` at
offsets 0, 8, 12, 36, zero-valued little-endian length fields at offsets 4
and 40, PCM tag 1 at offset 20, channels `1` at offset 22, `sampleRate` at
offset 24, byte-rate `sampleRate * 1 * (bitsPerSample / 8)` at offset 28,
block-align `1 * (bitsPerSample / 8)` at offset 32, and `bitsPerSample` at
offset 34. -/
theorem claim_C2_wav_header (sr bps : Nat)
    (hsr : sr < 4294967296) (hbps : bps < 65536) (hdiv : 8 ∣ bps)
    (hrate : sr * 1 * (bps / 8) < 4294967296) :
    (createWavHeader sr bps).size = 44 ∧
    tagAt (createWavHeader sr bps) 0 = strBytes "RIFF" ∧
    tagAt (createWavHeader sr bps) 8 = strBytes "WAVE" ∧
    tagAt (createWavHeader sr bps) 12 = strBytes "fmt " ∧
    tagAt (createWavHeader sr bps) 36 = strBytes "data" ∧
    getU32LE (createWavHeader sr bps) 4 = 0 ∧
    getU32LE (createWavHeader sr bps) 40 = 0 ∧
    getU16LE (createWavHeader sr bps) 20 = 1 ∧
    getU16LE (createWavHeader sr bps) 22 = 1 ∧
    getU32LE (createWavHeader sr bps) 24 = sr ∧
    getU32LE (createWavHeader sr bps) 28 = sr * 1 * (bps / 8) ∧
    getU16LE (createWavHeader sr bps) 32 = 1 * (bps / 8) ∧
    getU16LE (createWavHeader sr bps) 34 = bps := by
  have hba := createWavHeader_byteAt sr bps
  rw [Nat.mul_one] at hrate
  refine ⟨rfl, ?_, ?_, ?_, ?_, ?_, ?_, ?_, ?_, ?_, ?_, ?_, ?_⟩ <;>
    simp [tagAt, getU32LE, getU16LE, hba, strBytes_RIFF, strBytes_WAVE,
      strBytes_fmt, strBytes_data] <;> omega

/-- Witness for C2 at the program's actual call `createWavHeader(16000, 16)`. -/
theorem claim_C2_wav_header_witness :
    (createWavHeader 16000 16).size = 44 ∧
    tagAt (createWavHeader 16000 16) 0 = strBytes "RIFF" ∧
    tagAt (createWavHeader 16000 16) 8 = strBytes "WAVE" ∧
    tagAt (createWavHeader 16000 16) 12 = strBytes "fmt " ∧
    tagAt (createWavHeader 16000 16) 36 = strBytes "data" ∧
    getU32LE (createWavHeader 16000 16) 4 = 0 ∧
    getU32LE (createWavHeader 16000 16) 40 = 0 ∧
    getU16LE (createWavHeader 16000 16) 20 = 1 ∧
    getU16LE (createWavHeader 16000 16) 22 = 1 ∧
    getU32LE (createWavHeader 16000 16) 24 = 16000 ∧
    getU32LE (createWavHeader 16000 16) 28 = 16000 * 1 * (16 / 8) ∧
    getU16LE (createWavHeader 16000 16) 32 = 1 * (16 / 8) ∧
    getU16LE (createWavHeader 16000 16) 34 = 16 :=
  claim_C2_wav_header 16000 16 (by decide) (by decide) (by decide) (by decide)

/-- C3: the container classifier returns `container` (`true`) for every buffer
whose bytes 0-3 are ASCII `"RIFF"` and bytes 8-11 are ASCII `"WAVE"`; it
returns `raw` (`false`) for every buffer shorter than 12 bytes, and for any
buffer whose first-4 or 8-11 byte groups do not both match those tags. -/
theorem claim_C3_isWavFile (data : List Nat) :
    ((bytesAt4 data 0 = strBytes "RIFF" → bytesAt4 data 8 = strBytes "WAVE" →
      isWavFile data = true) ∧
     (data.length < 12 → isWavFile data = false) ∧
     (¬(bytesAt4 data 0 = strBytes "RIFF" ∧ bytesAt4 data 8 = strBytes "WAVE") →
      isWavFile data = false)) := by
  refine ⟨fun hr hw => ?_, fun hshort => ?_, fun hnot => ?_⟩
  · have hlen : ¬ data.length < 12 := by
      intro hlt
      rw [strBytes_WAVE] at hw
      simp only [bytesAt4, List.cons.injEq, List.getD_eq_getElem?_getD] at hw
      have h11 : data[11]? = none := by
        rw [List.getElem?_eq_none_iff]
        omega
      rw [h11] at hw
      simp at hw
    rw [isWavFile, if_neg hlen, hr, hw]
    simp
  · simp [isWavFile, hshort]
  · by_cases hlen : data.length < 12
    · simp [isWavFile, hlen]
    · rw [isWavFile, if_neg hlen]
      rcases not_and_or.mp hnot with h | h <;> simp [h]

/-- Witness for C3: a RIFF/WAVE-tagged buffer is `container`; a 3-byte buffer
and a 16-byte raw PCM buffer are `raw`. -/
theorem claim_C3_isWavFile_witness :
    isWavFile [82, 73, 70, 70, 0, 0, 0, 0, 87, 65, 86, 69] = true ∧
    isWavFile [1, 2, 3] = false ∧
    isWavFile [255, 127, 0, 128, 7, 7, 7, 7, 9, 9, 9, 9, 1, 2, 3, 4] = false :=
  ⟨(claim_C3_isWavFile _).1 (by decide) (by decide),
   (claim_C3_isWavFile _).2.1 (by decide),
   (claim_C3_isWavFile _).2.2 (by decide)⟩

/-! ## Sample conversions
(playback: VoiceInterface.tsx lines 266-269; capture: lines 509-512) -/

/-- Playback-path Int16 → Float32 (line 268):
`float32Array[i] = int16Array[i] / 32768.0`.  Every Int16 value divided by
32768 is exactly representable in Float32, so the rational value is exact. -/
def i16ToF32 (s : Int) : ℚ := (s : ℚ) / 32768

/-- JS number-to-integer truncation toward zero, the first step of the
`ToInt16` conversion performed by a store into an `Int16Array`. -/
def ratTrunc (q : ℚ) : Int := if 0 ≤ q then ⌊q⌋ else ⌈q⌉

/-- Wrap an integer to the signed 16-bit range, the second step of `ToInt16`. -/
def toInt16 (n : Int) : Int := (n + 32768) % 65536 - 32768

/-- Capture-path Float32 → Int16 (lines 510-512):
`let s = Math.max(-1, Math.min(1, inputData[i])); pcm16Data[i] = s < 0 ? s * 0x8000 : s * 0x7FFF`
followed by the `Int16Array` store (`ToInt16`). -/
def f32ToI16 (x : ℚ) : Int :=
  let s := max (-1) (min 1 x)
  toInt16 (ratTrunc (if s < 0 then s * 32768 else s * 32767))

/-- C4: the playback conversion divides by 32768, sending 32767 to
32767/32768, -32768 to -1 and 0 to 0; the capture conversion clamps to
[-1, 1] and scales negative values by 32768 and non-negative ones by 32767,
sending 1.5 to 32767 and -1.5 to -32768. -/
theorem claim_C4_conversions :
    i16ToF32 32767 = 32767 / 32768 ∧
    i16ToF32 (-32768) = -1 ∧
    i16ToF32 0 = 0 ∧
    f32ToI16 (3 / 2) = 32767 ∧
    f32ToI16 (-3 / 2) = -32768 ∧
    (∀ s : Int, i16ToF32 s = (s : ℚ) / 32768) ∧
    (∀ x : ℚ, x < 0 → -1 ≤ x → f32ToI16 x = toInt16 (ratTrunc (x * 32768))) ∧
    (∀ x : ℚ, 0 ≤ x → x ≤ 1 → f32ToI16 x = toInt16 (ratTrunc (x * 32767))) := by
  refine ⟨by norm_num [i16ToF32], by norm_num [i16ToF32], by norm_num [i16ToF32],
    ?_, ?_, fun s => rfl, fun x hneg hge => ?_, fun x hge hle => ?_⟩
  · rw [f32ToI16]
    norm_num [min_def, max_def, ratTrunc, toInt16]
  · rw [f32ToI16]
    norm_num [min_def, max_def, ratTrunc, toInt16]
    rw [show ((-32768 : ℚ)) = ((-32768 : Int) : ℚ) by norm_num, Int.ceil_intCast]
    decide
  · rw [f32ToI16]
    rw [min_eq_right (by linarith), max_eq_right hge, if_pos hneg]
  · rw [f32ToI16]
    rw [min_eq_right hle, max_eq_right (by linarith), if_neg (by linarith)]

/-- Witness for C4's conditional clauses at -1/2 and 1/2. -/
theorem claim_C4_conversions_witness :
    f32ToI16 (-1 / 2) = toInt16 (ratTrunc (-1 / 2 * 32768)) ∧
    f32ToI16 (1 / 2) = toInt16 (ratTrunc (1 / 2 * 32767)) :=
  ⟨(claim_C4_conversions).2.2.2.2.2.2.1 (-1 / 2) (by norm_num) (by norm_num),
   (claim_C4_conversions).2.2.2.2.2.2.2 (1 / 2) (by norm_num) (by norm_num)⟩

/-! ## Playback Scheduler, GraphPlayback variant
(`playAudioOnWeb` lines 224-290, `playNextChunk` lines 292-330) -/

/-- A decoded playback chunk: one Float32 sample buffer. -/
abbrev Chunk := List ℚ

/-- The scheduler state: `audioQueueRef.current`, `isPlayingRef.current`, the
buffer of the current `audioSourceRef` source (if any), and the chunks whose
playback has been started (`source.start(0)`), in start order — the observable
rendering history. -/
structure PlaybackState where
  audioQueue : List Chunk
  isPlaying : Bool
  playingChunk : Option Chunk
  rendered : List Chunk
deriving DecidableEq

/-- The component's initial playback state: empty queue, idle. -/
def initialPlayback : PlaybackState := ⟨[], false, none, []⟩

/-- `playNextChunk()` (lines 292-330): with an empty queue, clear
`isPlayingRef` and report completion (idle); otherwise `shift()` the queue
head, set `isPlayingRef`, build a source for the head buffer and start it. -/
def playNextChunk (s : PlaybackState) : PlaybackState :=
  match s.audioQueue with
  | [] => { s with isPlaying := false, playingChunk := none }
  | c :: rest =>
    { audioQueue := rest, isPlaying := true, playingChunk := some c,
      rendered := s.rendered ++ [c] }

/-- The `source.onended` completion callback (lines 323-327): it calls
`playNextChunk()` synchronously. -/
def onEnded (s : PlaybackState) : PlaybackState := playNextChunk s

/-- The raw-PCM branch of `playAudioOnWeb` (lines 250-283): convert the Int16
samples to Float32 (`/ 32768`), push the chunk onto the queue, and if
`isPlayingRef` is not set, start playback via `playNextChunk()`. -/
def playRawChunk (s : PlaybackState) (data : List Int) : PlaybackState :=
  let chunk := data.map i16ToF32
  let s' := { s with audioQueue := s.audioQueue ++ [chunk] }
  if s'.isPlaying then s' else playNextChunk s'

/-- A push while something is playing only appends to the queue. -/
theorem playRawChunk_playing (s : PlaybackState) (d : List Int)
    (h : s.isPlaying = true) :
    playRawChunk s d = { s with audioQueue := s.audioQueue ++ [d.map i16ToF32] } := by
  simp [playRawChunk, h]

/-- Pushes arriving while a chunk plays accumulate in FIFO order. -/
theorem foldl_playRawChunk_playing (ds : List (List Int)) :
    ∀ (q done : List Chunk) (c : Chunk),
    List.foldl playRawChunk ⟨q, true, some c, done⟩ ds =
      ⟨q ++ ds.map (fun d => d.map i16ToF32), true, some c, done⟩ := by
  induction ds with
  | nil => intro q done c; simp
  | cons d ds ih =>
    intro q done c
    rw [List.foldl_cons, playRawChunk_playing _ _ rfl, ih]
    simp

/-- Draining: from a playing state with `n` queued chunks, `n + 1` completion
callbacks render exactly the queued chunks in order and end idle. -/
theorem onEnded_drain (q : List Chunk) :
    ∀ (done : List Chunk) (c : Chunk),
    onEnded^[q.length + 1] ⟨q, true, some c, done⟩ =
      ⟨[], false, none, done ++ q⟩ := by
  induction q with
  | nil =>
    intro done c
    simp [onEnded, playNextChunk]
  | cons x xs ih =>
    intro done c
    have hstep : onEnded ⟨x :: xs, true, some c, done⟩ =
        ⟨xs, true, some x, done ++ [x]⟩ := by
      simp [onEnded, playNextChunk]
    rw [show (x :: xs).length + 1 = (xs.length + 1) + 1 by simp,
      Function.iterate_succ_apply, hstep, ih]
    simp

/-- C1: chunks pushed from the idle state are rendered fully and in FIFO
order — after all pushes and one completion callback per started chunk the
rendering history is exactly the pushed sequence (converted to Float32) and
the scheduler is idle (`isPlaying = false`, empty queue); moreover every
completion callback on a state with a non-empty queue synchronously starts
the queue head. -/
theorem claim_C1_playback_fifo (cs : List (List Int)) :
    ((onEnded^[cs.length] (cs.foldl playRawChunk initialPlayback)).rendered =
        cs.map (fun d => d.map i16ToF32) ∧
     (onEnded^[cs.length] (cs.foldl playRawChunk initialPlayback)).isPlaying = false ∧
     (onEnded^[cs.length] (cs.foldl playRawChunk initialPlayback)).audioQueue = []) ∧
    (∀ s : PlaybackState, s.audioQueue ≠ [] →
      (onEnded s).isPlaying = true ∧
      (onEnded s).playingChunk = s.audioQueue.head? ∧
      (onEnded s).rendered = s.rendered ++ s.audioQueue.take 1) := by
  constructor
  · match cs with
    | [] => exact ⟨rfl, rfl, rfl⟩
    | c :: rest =>
      have hfirst : playRawChunk initialPlayback c =
          ⟨[], true, some (c.map i16ToF32), [c.map i16ToF32]⟩ := by
        simp [playRawChunk, initialPlayback, playNextChunk]
      rw [List.foldl_cons, hfirst, foldl_playRawChunk_playing]
      have hlen : (c :: rest).length = (rest.map (fun d => d.map i16ToF32)).length + 1 := by
        simp
      rw [hlen, show ([] : List Chunk) ++ rest.map (fun d => d.map i16ToF32) =
        rest.map (fun d => d.map i16ToF32) from by simp, onEnded_drain]
      simp
  · intro s hne
    match hq : s.audioQueue with
    | [] => exact absurd hq hne
    | c :: rest =>
      refine ⟨?_, ?_, ?_⟩ <;> simp [onEnded, playNextChunk, hq]

/-- Witness for C1's completion-callback clause at a concrete one-chunk queue. -/
theorem claim_C1_playback_fifo_witness :
    (onEnded ⟨[[1 / 2]], true, some [1 / 4], []⟩).isPlaying = true ∧
    (onEnded ⟨[[1 / 2]], true, some [1 / 4], []⟩).playingChunk = some [1 / 2] ∧
    (onEnded ⟨[[1 / 2]], true, some [1 / 4], []⟩).rendered = [[1 / 2]] := by
  have h := (claim_C1_playback_fifo []).2 ⟨[[1 / 2]], true, some [1 / 4], []⟩ (by decide)
  simpa using h

/-! ## Voice Session Controller and Transport Session
(`connectWebSocket` lines 144-187, `startRecording` lines 371-399,
`startMobileRecording` lines 402-448, `stopRecording` lines 535-586) -/

/-- One outbound frame.  `header sr bps` is the 44-byte frame whose payload
is `createWavHeader sr bps`; `audio d` is a binary frame of Int16 samples;
`stopEvent` is the text frame `JSON.stringify({ event: 'stop' })`. -/
inductive Msg where
  | header (sampleRate bitsPerSample : Nat)
  | audio (samples : List Int)
  | stopEvent
deriving DecidableEq

/-- `WebSocket.readyState`. -/
inductive WsReady where
  | connecting
  | opened
  | closing
  | closed
deriving DecidableEq

/-- The component state the voice session reads and writes: the socket's
ready state, the `isConnected` and `isRecording` flags, whether a capture
pipeline is live (`LiveAudioStream` started / processor graph connected —
frames are only delivered while it is), whether the status line shows the
error marker, and the ordered log of outbound frames. -/
structure Session where
  wsReady : WsReady
  isConnected : Bool
  isRecording : Bool
  captureActive : Bool
  statusError : Bool
  sent : List Msg
deriving DecidableEq

/-- State right after `new WebSocket(url)`: connecting, nothing sent. -/
def initialSession : Session := ⟨.connecting, false, false, false, false, []⟩

/-- The `audioOptions` constants (lines 85-90). -/
def audioSampleRate : Nat := 16000

def audioBitsPerSample : Nat := 16

/-- `ws.onopen` (lines 152-156): the platform moves `readyState` to OPEN and
the handler sets `isConnected`. -/
def stepOpen (s : Session) : Session :=
  { s with wsReady := .opened, isConnected := true }

/-- `startRecording` (lines 371-399): rejected unless connected with an OPEN
socket; otherwise sends the WAV header as the turn's first frame, starts the
platform capture pipeline, and sets `isRecording`. -/
def stepStartRecording (s : Session) : Session :=
  if s.isConnected = true ∧ s.wsReady = .opened then
    { s with sent := s.sent ++ [.header audioSampleRate audioBitsPerSample],
             captureActive := true, isRecording := true }
  else s

/-- The mobile `LiveAudioStream.on('data', ...)` callback (lines 426-436):
fires only while the stream is started; sends the converted buffer when
`isRecordingRef.current` is set and the socket is OPEN. -/
def stepMobileFrame (s : Session) (d : List Int) : Session :=
  if s.captureActive = true ∧ s.isRecording = true ∧ s.wsReady = .opened then
    { s with sent := s.sent ++ [.audio d] }
  else s

/-- `stopRecording` (lines 535-586): clears `isRecording`, tears down the
capture resources, then sends the end-of-stream text frame whenever the
socket is OPEN (the send is not conditioned on having been recording). -/
def stepStopRecording (s : Session) : Session :=
  let s1 := { s with isRecording := false, captureActive := false }
  if s1.wsReady = .opened then { s1 with sent := s1.sent ++ [.stopEvent] }
  else s1

/-- `ws.onerror` (lines 167-171): the handler itself only records the error
status (`setConnectionStatus('🔴 Error')`); it changes neither `isConnected`
nor `isRecording`.  The platform has already failed the connection when the
error event fires, so `readyState` is no longer OPEN. -/
def stepError (s : Session) : Session :=
  { s with statusError := true, wsReady := .closed }

/-- `ws.onclose` (lines 173-181): clears `isConnected` and tests
`if (isRecording)` to decide whether to call `stopRecording`.  The handler is
a closure created inside `connectWebSocket`, so the `isRecording` it reads is
the React state value captured when the handler was installed — NOT the live
flag; `capturedIsRecording` is that captured value.  `connectWebSocket` runs
from the Connect button, shown only while disconnected and hence while not
recording, so the captured value is `false` in every reachable trace and the
recording branch is dead: `onclose` never stops a recording. -/
def stepClose (capturedIsRecording : Bool) (s : Session) : Session :=
  let s1 := { s with wsReady := .closed, isConnected := false }
  if capturedIsRecording = true then stepStopRecording s1 else s1

/-- The session events relevant to the claims. -/
inductive Ev where
  | wsOpened
  | startRec
  | mobileFrame (d : List Int)
  | stopRec
  | wsError
  | wsClosed
deriving DecidableEq

def step (s : Session) : Ev → Session
  | .wsOpened => stepOpen s
  | .startRec => stepStartRecording s
  | .mobileFrame d => stepMobileFrame s d
  | .stopRec => stepStopRecording s
  | .wsError => stepError s
  | .wsClosed => stepClose false s

def run (s : Session) (es : List Ev) : Session := es.foldl step s

/-- Number of header frames in an outbound log. -/
def countHeader (ms : List Msg) : Nat :=
  (ms.filter fun m => match m with | .header _ _ => true | _ => false).length

/-- Audio frames delivered while recording with an OPEN socket are sent in
order. -/
theorem run_frames_recording (cs : List (List Int)) :
    ∀ s : Session, s.captureActive = true → s.isRecording = true →
    s.wsReady = .opened →
    run s (cs.map .mobileFrame) = { s with sent := s.sent ++ cs.map .audio } := by
  induction cs with
  | nil => intro s _ _ _; simp [run]
  | cons c cs ih =>
    intro s hcap hrec hopen
    have hstep : step s (.mobileFrame c) = { s with sent := s.sent ++ [.audio c] } := by
      simp [step, stepMobileFrame, hcap, hrec, hopen]
    have := ih { s with sent := s.sent ++ [.audio c] } hcap hrec hopen
    simp only [run, List.map_cons, List.foldl_cons, hstep]
    simp only [run] at this
    rw [this]
    simp

/-- No audio frame is sent by the capture callback once the socket has left
the OPEN state. -/
theorem run_frames_not_open (cs : List (List Int)) :
    ∀ s : Session, s.wsReady ≠ .opened → run s (cs.map .mobileFrame) = s := by
  induction cs with
  | nil => intro s _; simp [run]
  | cons c cs ih =>
    intro s hned
    have hstep : step s (.mobileFrame c) = s := by
      simp [step, stepMobileFrame]
      intro _ _ h
      exact absurd h hned
    simp only [run, List.map_cons, List.foldl_cons, hstep]
    exact ih s hned

/-- A two-turn session: connect, record and stop twice. -/
def twoTurnTrace : List Ev :=
  [.wsOpened, .startRec, .mobileFrame [1], .stopRec,
   .startRec, .mobileFrame [2], .stopRec]

/-- C5 counterexample: in a single connected session with two recording
turns, the header frame is sent twice — once per `startRecording` call — and
the second header is neither the session's first outbound frame nor ahead of
all audio frames, so the header is not "sent exactly once, as the first
outbound frame, before any audio frame" of the connected session. -/
theorem claim_C5_counterexample :
    (run initialSession twoTurnTrace).sent =
      [Msg.header audioSampleRate audioBitsPerSample, .audio [1], .stopEvent,
       Msg.header audioSampleRate audioBitsPerSample, .audio [2], .stopEvent] ∧
    countHeader (run initialSession twoTurnTrace).sent = 2 := by
  constructor <;> decide

/-- C5 amended: within one recording turn (start recording, N delivered
frames, stop recording, all on a connected OPEN session), the header is sent
exactly once, as the first frame of the turn, before any audio frame of the
turn, and exactly one stop text frame is sent, after the turn's last audio
frame and before any subsequent frame; the whole turn appends exactly
`header · audio* · stop` to the outbound log and returns the session to the
connected, not-recording state. -/
theorem claim_C5_recording_turn (s : Session) (cs : List (List Int))
    (hconn : s.isConnected = true) (hopen : s.wsReady = .opened)
    (hrec : s.isRecording = false) (hcap : s.captureActive = false) :
    run s ([Ev.startRec] ++ cs.map Ev.mobileFrame ++ [Ev.stopRec]) =
      { s with sent := s.sent ++ [Msg.header audioSampleRate audioBitsPerSample]
          ++ cs.map Msg.audio ++ [Msg.stopEvent] } := by
  obtain ⟨w, conn, rec, cap, err, ms⟩ := s
  simp only at hconn hopen hrec hcap
  subst hconn hopen hrec hcap
  rw [run, List.foldl_append, List.foldl_append]
  have h1 : List.foldl step ⟨.opened, true, false, false, err, ms⟩ [Ev.startRec] =
      ⟨.opened, true, true, true, err,
        ms ++ [.header audioSampleRate audioBitsPerSample]⟩ := by
    simp [step, stepStartRecording]
  rw [h1]
  have h2 := run_frames_recording cs ⟨.opened, true, true, true, err,
      ms ++ [.header audioSampleRate audioBitsPerSample]⟩ rfl rfl rfl
  rw [run] at h2
  rw [h2]
  simp [step, stepStopRecording]

/-- Witness for C5's amended turn property: one concrete two-frame turn. -/
theorem claim_C5_recording_turn_witness :
    run ⟨.opened, true, false, false, false, []⟩
      ([Ev.startRec] ++ [[5], [6]].map Ev.mobileFrame ++ [Ev.stopRec]) =
      ⟨.opened, true, false, false, false,
        [Msg.header audioSampleRate audioBitsPerSample,
         .audio [5], .audio [6], .stopEvent]⟩ := by
  have h := claim_C5_recording_turn ⟨.opened, true, false, false, false, []⟩
    [[5], [6]] rfl rfl rfl rfl
  simpa using h

/-- A session that is connected and recording with a live capture pipeline. -/
def recordingSession : Session := ⟨.opened, true, true, true, false, []⟩

/-- C6 counterexample: the `onerror` handler does not transition the session
to Disconnected and does not stop the recording — after observing a transport
error while Recording, `isConnected` and `isRecording` are both still set
(only the status display changes) — and even the accompanying close event
never stops the recording, because the `onclose` closure tests the
`isRecording` value captured at connect time, which is `false`: the flag is
still set and the capture pipeline still live after error and close. -/
theorem claim_C6_counterexample :
    (stepError recordingSession).statusError = true ∧
    (stepError recordingSession).isConnected = true ∧
    (stepError recordingSession).isRecording = true ∧
    (stepClose false (stepError recordingSession)).isRecording = true ∧
    (stepClose false (stepError recordingSession)).captureActive = true := by
  refine ⟨rfl, rfl, rfl, rfl, rfl⟩

/-- C6 amended: observing a transport error while Recording sends nothing
and halts all further audio transmission — the socket has left the OPEN
state, on which every send is guarded, so zero audio frames are sent after
the error — but the error handler itself only records an error status,
leaving `isConnected`/`isRecording` set; the accompanying close event
transitions the session to Disconnected (`isConnected := false`), yet it
never stops the recording: the `onclose` closure reads the `isRecording`
value captured when the handler was installed at connect time (`false`), so
the recording flag stays set and the capture resources are not released, and
no frame is sent after the close either. -/
theorem claim_C6_error_halts_frames (s : Session)
    (hconn : s.isConnected = true) (hrec : s.isRecording = true) :
    (stepError s).sent = s.sent ∧
    (stepError s).isConnected = true ∧
    (stepError s).isRecording = true ∧
    (∀ ds : List (List Int), run (stepError s) (ds.map .mobileFrame) = stepError s) ∧
    (stepClose false (stepError s)).isConnected = false ∧
    (stepClose false (stepError s)).isRecording = true ∧
    (stepClose false (stepError s)).captureActive = s.captureActive ∧
    (stepClose false (stepError s)).sent = s.sent ∧
    (∀ ds : List (List Int),
      run (stepClose false (stepError s)) (ds.map .mobileFrame) =
        stepClose false (stepError s)) := by
  obtain ⟨w, conn, rec, cap, err, ms⟩ := s
  simp only at hconn hrec
  subst hconn hrec
  refine ⟨rfl, rfl, rfl, fun ds => run_frames_not_open ds _ (by simp [stepError]),
    ?_, ?_, ?_, ?_, fun ds => run_frames_not_open ds _ ?_⟩ <;>
    simp [stepError, stepClose, stepStopRecording]

/-- Witness for C6's amended property at a concrete recording session. -/
theorem claim_C6_error_halts_frames_witness :
    (stepError recordingSession).sent = [] ∧
    (stepError recordingSession).isConnected = true ∧
    (stepError recordingSession).isRecording = true ∧
    run (stepError recordingSession) [.mobileFrame [7]] = stepError recordingSession ∧
    (stepClose false (stepError recordingSession)).isConnected = false ∧
    (stepClose false (stepError recordingSession)).isRecording = true ∧
    (stepClose false (stepError recordingSession)).captureActive = true ∧
    (stepClose false (stepError recordingSession)).sent = [] := by
  have h := claim_C6_error_halts_frames recordingSession rfl rfl
  exact ⟨h.1, h.2.1, h.2.2.1, h.2.2.2.1 [[7]], h.2.2.2.2.1, h.2.2.2.2.2.1,
    h.2.2.2.2.2.2.1, h.2.2.2.2.2.2.2.1⟩

/-- A session that is connected with an OPEN socket but not recording. -/
def connectedIdleSession : Session := ⟨.opened, true, false, false, false, []⟩

/-- C7 counterexample: calling `stopRecording` while Connected but not
Recording is not a no-op on the wire — the code sends the
`{"event":"stop"}` text frame whenever the socket is OPEN, without checking
the recording flag. -/
theorem claim_C7_counterexample :
    (stepStopRecording connectedIdleSession).sent = [Msg.stopEvent] := by
  decide

/-- C7 amended: `stopRecording` while Connected but not Recording leaves the
whole session state (connected flag, recording flag, capture resources)
unchanged except that it appends exactly one `{"event":"stop"}` control
frame to the outbound log. -/
theorem claim_C7_stop_when_idle (s : Session)
    (hconn : s.isConnected = true) (hrec : s.isRecording = false)
    (hcap : s.captureActive = false) (hopen : s.wsReady = .opened) :
    stepStopRecording s = { s with sent := s.sent ++ [Msg.stopEvent] } := by
  obtain ⟨w, conn, rec, cap, err, ms⟩ := s
  simp only at hconn hopen hrec hcap
  subst hconn hopen hrec hcap
  simp [stepStopRecording]

/-- Witness for C7's amended property at the concrete idle session. -/
theorem claim_C7_stop_when_idle_witness :
    stepStopRecording connectedIdleSession =
      ⟨.opened, true, false, false, false, [Msg.stopEvent]⟩ := by
  have h := claim_C7_stop_when_idle connectedIdleSession rfl rfl rfl rfl
  simpa [connectedIdleSession] using h

/-! ## Web capture path guard (C9)
(`onaudioprocess` lines 499-521, teardown lines 546-560) -/

/-- The truthiness of `isRecordingRef` as tested by the guard
`if (!isRecordingRef || ...)`: the guard reads the ref container object,
which exists for the component's whole lifetime, not its `.current` boolean,
so the test is always truthy. -/
def isRecordingRefTruthy : Bool := true

/-- The web `onaudioprocess` callback (lines 499-521): fires only while the
processor graph is connected (`captureActive`); returns early when
`!isRecordingRef || wsRef.current?.readyState !== WebSocket.OPEN`, otherwise
converts the Float32 block to Int16 and sends it. -/
def stepWebFrame (s : Session) (d : List ℚ) : Session :=
  if s.captureActive = true then
    if isRecordingRefTruthy = false ∨ s.wsReady ≠ .opened then s
    else { s with sent := s.sent ++ [.audio (d.map f32ToI16)] }
  else s

/-- C9: on the web capture path, whether a delivered frame is sent depends
only on the socket being OPEN — for every value of the recording flag the
frame is converted and sent when the socket is OPEN and dropped otherwise;
after `stopRecording`'s resource teardown the callback no longer fires, which
is what actually halts transmission. -/
theorem claim_C9_web_guard_ref (s : Session) (d : List ℚ) (b : Bool)
    (hcap : s.captureActive = true) :
    ((stepWebFrame { s with isRecording := b } d).sent =
      if s.wsReady = .opened then s.sent ++ [Msg.audio (d.map f32ToI16)]
      else s.sent) ∧
    stepWebFrame (stepStopRecording s) d = stepStopRecording s := by
  constructor
  · by_cases h : s.wsReady = .opened <;>
      simp [stepWebFrame, hcap, isRecordingRefTruthy, h]
  · have hc : (stepStopRecording s).captureActive = false := by
      by_cases h : s.wsReady = .opened <;> simp [stepStopRecording, h]
    simp [stepWebFrame, hc]

/-- Witness for C9: with the recording flag off, a live capture pipeline and
an OPEN socket, the frame is still converted and sent; after teardown it is
dropped. -/
theorem claim_C9_web_guard_ref_witness :
    (stepWebFrame ⟨.opened, true, false, true, false, []⟩ [1 / 2]).sent =
      [Msg.audio [16383]] ∧
    stepWebFrame (stepStopRecording ⟨.opened, true, false, true, false, []⟩) [1 / 2] =
      stepStopRecording ⟨.opened, true, false, true, false, []⟩ := by
  have h := claim_C9_web_guard_ref ⟨.opened, true, false, true, false, []⟩
    [1 / 2] false rfl
  have heval : f32ToI16 (1 / 2) = 16383 := by
    norm_num [f32ToI16, ratTrunc, toInt16, min_def, max_def]
  constructor
  · have h1 := h.1
    rw [if_pos rfl, List.map_cons, List.map_nil, heval, List.nil_append] at h1
    exact h1
  · exact h.2

/-! ## Collaborator identifier derivation
(`useRecipes.ts`: `addRecipe` lines 75-76, `updateRecipe`, `deleteRecipe`) -/

/-- The value of one hex digit as accepted by `parseInt(_, 16)`
(`0-9`, `a-f`, `A-F`); `none` for any other character. -/
def hexVal? (c : Char) : Option Nat :=
  if '0' ≤ c ∧ c ≤ '9' then some (c.toNat - '0'.toNat)
  else if 'a' ≤ c ∧ c ≤ 'f' then some (c.toNat - 'a'.toNat + 10)
  else if 'A' ≤ c ∧ c ≤ 'F' then some (c.toNat - 'A'.toNat + 10)
  else none

/-- Accumulating hex parse that stops at the first non-hex character
(`parseInt` parses the longest valid prefix). -/
def parseHexAux : List Char → Nat → Nat
  | [], acc => acc
  | c :: cs, acc =>
    match hexVal? c with
    | some v => parseHexAux cs (acc * 16 + v)
    | none => acc

/-- `parseInt(s, 16)`: `none` (NaN) when the string does not start with a hex
digit, otherwise the value of the longest hex-digit prefix.  (Leading
whitespace/sign handling is irrelevant here: the inputs are UUID strings.) -/
def parseInt16 (cs : List Char) : Option Nat :=
  match cs with
  | [] => none
  | c :: _ =>
    match hexVal? c with
    | none => none
    | some _ => some (parseHexAux cs 0)

/-- `id.replace(hyphens, '')`: drops every `-` from the string. -/
def stripHyphens (cs : List Char) : List Char := cs.filter (· ≠ '-')

/-- addRecipe, line 75: parseInt of the first 8 chars of the hyphen-free
recipe id, base 16. -/
def addRecipeChromaRecipeId (dataId : List Char) : Option Nat :=
  parseInt16 ((stripHyphens dataId).take 8)

/-- addRecipe, line 76: parseInt of the first 8 chars of the hyphen-free
user id, base 16. -/
def addRecipeChromaUserId (userId : List Char) : Option Nat :=
  parseInt16 ((stripHyphens userId).take 8)

/-- updateRecipe: parseInt of the first 8 chars of the hyphen-free id, base 16. -/
def updateRecipeChromaId (id : List Char) : Option Nat :=
  parseInt16 ((stripHyphens id).take 8)

/-- deleteRecipe, line 275: parseInt of the first 8 chars of the hyphen-free
id, base 16. -/
def deleteRecipeChromaId (id : List Char) : Option Nat :=
  parseInt16 ((stripHyphens id).take 8)

/-- The claim's reading of the derivation: parse the LOW-order eight hex
characters (the last eight of the hyphen-free identifier, i.e. its
least-significant 32 bits). -/
def lowOrderHexId (cs : List Char) : Option Nat :=
  parseInt16 ((stripHyphens cs).drop ((stripHyphens cs).length - 8))

/-- A well-formed UUID whose high-order and low-order 32-bit halves differ. -/
def cexUuid : List Char := "00000001-0000-0000-0000-0000000000ff".data

/-- The value of a string of hex digits, most significant first. -/
def hexValue (cs : List Char) : Nat :=
  cs.foldl (fun a c => a * 16 + (hexVal? c).getD 0) 0

/-- Every hex-digit value is at most 15 (non-digits default to 0). -/
theorem hexVal_le (c : Char) : (hexVal? c).getD 0 ≤ 15 := by
  rw [hexVal?]
  split
  · next h =>
    have h2 : c.toNat ≤ 57 := h.2
    simp
    omega
  · split
    · next h =>
      have h2 : c.toNat ≤ 102 := h.2
      have h1 : 97 ≤ c.toNat := h.1
      simp
      omega
    · split
      · next h =>
        have h2 : c.toNat ≤ 70 := h.2
        simp
        omega
      · simp

/-- On a string of hex digits the accumulating parse is a plain fold. -/
theorem parseHexAux_eq_foldl (cs : List Char)
    (h : ∀ c ∈ cs, (hexVal? c).isSome) :
    ∀ acc, parseHexAux cs acc =
      cs.foldl (fun a c => a * 16 + (hexVal? c).getD 0) acc := by
  induction cs with
  | nil => intro acc; rfl
  | cons c cs ih =>
    intro acc
    obtain ⟨v, hv⟩ := Option.isSome_iff_exists.mp (h c (by simp))
    rw [parseHexAux, hv, List.foldl_cons, hv]
    exact ih (fun x hx => h x (by simp [hx])) _

/-- Shifting the accumulator out of the hex fold. -/
theorem hexFoldl_shift (cs : List Char) :
    ∀ acc, cs.foldl (fun a c => a * 16 + (hexVal? c).getD 0) acc =
      acc * 16 ^ cs.length + hexValue cs := by
  induction cs with
  | nil => intro acc; simp [hexValue]
  | cons c cs ih =>
    intro acc
    rw [List.foldl_cons, ih]
    have hrhs : hexValue (c :: cs) = (hexVal? c).getD 0 * 16 ^ cs.length + hexValue cs := by
      rw [hexValue, List.foldl_cons, ih]
      ring_nf
    rw [hrhs, List.length_cons]
    ring

/-- The hex value of a digit string fits in 4 bits per digit. -/
theorem hexValue_lt (cs : List Char) : hexValue cs < 16 ^ cs.length := by
  induction cs with
  | nil => simp [hexValue]
  | cons c cs ih =>
    have hv := hexVal_le c
    have hsplit : hexValue (c :: cs) = (hexVal? c).getD 0 * 16 ^ cs.length + hexValue cs := by
      rw [hexValue, List.foldl_cons, hexFoldl_shift]
      simp [hexValue]
    rw [hsplit, List.length_cons]
    have h16 : (hexVal? c).getD 0 * 16 ^ cs.length ≤ 15 * 16 ^ cs.length :=
      Nat.mul_le_mul_right _ hv
    have hpow : 15 * 16 ^ cs.length + 16 ^ cs.length = 16 ^ (cs.length + 1) := by ring
    omega

/-- On a non-empty string of hex digits, `parseInt(_, 16)` returns exactly
the string's hex value. -/
theorem parseInt16_all_hex (cs : List Char) (hne : cs ≠ [])
    (h : ∀ c ∈ cs, (hexVal? c).isSome) : parseInt16 cs = some (hexValue cs) := by
  match cs with
  | [] => exact absurd rfl hne
  | c :: rest =>
    obtain ⟨v, hv⟩ := Option.isSome_iff_exists.mp (h c (by simp))
    simp only [parseInt16, hv]
    rw [parseHexAux_eq_foldl (c :: rest) h 0]
    rfl

/-- C8 counterexample: for the UUID `00000001-…-0000000000ff` the code sends
the value of the leading eight hex characters (1), not the value of the
low-order eight hex characters (255), so the 32-bit identifier is not
"computed by taking a low-order hex substring". -/
theorem claim_C8_counterexample :
    addRecipeChromaRecipeId cexUuid = some 1 ∧
    lowOrderHexId cexUuid = some 255 ∧
    addRecipeChromaRecipeId cexUuid ≠ lowOrderHexId cexUuid := by
  refine ⟨by decide, by decide, by decide⟩

/-- C8 amended: for every well-formed 128-bit identifier (32 hex characters
after removing hyphens), the integer sent is obtained by parsing the LEADING
eight hex characters — the value of the identifier's HIGH-order 32 bits,
`hexValue / 16^24` — and the same derivation is used at every call site
(addRecipe recipe and user ids, updateRecipe, deleteRecipe). -/
theorem claim_C8_id_derivation (id : List Char)
    (hlen : (stripHyphens id).length = 32)
    (hhex : ∀ c ∈ stripHyphens id, (hexVal? c).isSome) :
    addRecipeChromaRecipeId id = some (hexValue (stripHyphens id) / 16 ^ 24) ∧
    addRecipeChromaUserId id = addRecipeChromaRecipeId id ∧
    updateRecipeChromaId id = addRecipeChromaRecipeId id ∧
    deleteRecipeChromaId id = addRecipeChromaRecipeId id := by
  refine ⟨?_, rfl, rfl, rfl⟩
  set l := stripHyphens id with hl
  have hsplit : l.take 8 ++ l.drop 8 = l := List.take_append_drop 8 l
  have hdlen : (l.drop 8).length = 24 := by
    rw [List.length_drop, hlen]
  have htlen : (l.take 8).length = 8 := by
    rw [List.length_take, hlen]
    omega
  have hvalue : hexValue l = hexValue (l.take 8) * 16 ^ 24 + hexValue (l.drop 8) := by
    rw [hexValue, ← hsplit, List.foldl_append, hexFoldl_shift, hdlen]
    rw [List.take_append_drop]
    rfl
  have hdiv : hexValue l / 16 ^ 24 = hexValue (l.take 8) := by
    rw [hvalue, Nat.mul_comm (hexValue (l.take 8)) (16 ^ 24),
      Nat.mul_add_div (pow_pos (by norm_num) 24),
      Nat.div_eq_of_lt (hdlen ▸ hexValue_lt (l.drop 8)), Nat.add_zero]
  rw [addRecipeChromaRecipeId, ← hl, hdiv]
  have hne : l.take 8 ≠ [] := by
    intro hemp
    rw [hemp] at htlen
    simp at htlen
  exact parseInt16_all_hex (l.take 8) hne
    (fun x hx => hhex x (List.mem_of_mem_take hx))

/-- Witness for C8's amended derivation at a concrete UUID. -/
theorem claim_C8_id_derivation_witness :
    addRecipeChromaRecipeId cexUuid =
      some (hexValue (stripHyphens cexUuid) / 16 ^ 24) ∧
    addRecipeChromaUserId cexUuid = addRecipeChromaRecipeId cexUuid ∧
    updateRecipeChromaId cexUuid = addRecipeChromaRecipeId cexUuid ∧
    deleteRecipeChromaId cexUuid = addRecipeChromaRecipeId cexUuid :=
  claim_C8_id_derivation cexUuid (by decide) (by decide)

/-! ## Native playback path: base64 data URI
(`playAudioOnMobile` lines 332-363, `handleAudioResponse` lines 198-213) -/

/-- The base64 alphabet used by `btoa`. -/
def b64Alphabet : List Char :=
  "ABCDEFGHIJKLMNOPQRSTUVWXYZabcdefghijklmnopqrstuvwxyz0123456789+/".data

/-- The output character for one 6-bit group. -/
def b64Char (n : Nat) : Char := b64Alphabet.getD n 'A'

/-- `btoa(String.fromCharCode(...uint8Array))` (line 339): standard base64
with `=` padding over exactly the buffer's bytes (each byte < 256 becomes one
latin1 character, so `btoa` sees the raw bytes). -/
def b64EncodeBytes : List Nat → List Char
  | [] => []
  | [b1] => [b64Char (b1 / 4), b64Char (b1 % 4 * 16), '=', '=']
  | [b1, b2] => [b64Char (b1 / 4), b64Char (b1 % 4 * 16 + b2 / 16),
      b64Char (b2 % 16 * 4), '=']
  | b1 :: b2 :: b3 :: rest =>
      b64Char (b1 / 4) :: b64Char (b1 % 4 * 16 + b2 / 16) ::
      b64Char (b2 % 16 * 4 + b3 / 64) :: b64Char (b3 % 64) ::
      b64EncodeBytes rest

/-- The 6-bit value of a base64 character (its index in the alphabet). -/
def b64Val (c : Char) : Nat := b64Alphabet.indexOf c

/-- Regrouping base64 digit values (4 six-bit digits to 3 bytes; 2 digits to
1 byte and 3 digits to 2 bytes at a padded tail). -/
def b64DecodeVals : List Nat → List Nat
  | [v1, v2] => [v1 * 4 + v2 / 16]
  | [v1, v2, v3] => [v1 * 4 + v2 / 16, v2 % 16 * 16 + v3 / 4]
  | v1 :: v2 :: v3 :: v4 :: rest =>
      (v1 * 4 + v2 / 16) :: (v2 % 16 * 16 + v3 / 4) :: (v3 % 4 * 64 + v4) ::
      b64DecodeVals rest
  | _ => []

/-- Modelled from the spec: the standard base64 decoding that the platform
media player applies to the data URI's payload (the repository contains no
decoder; only the encoder side is in `playAudioOnMobile`).  Strips padding,
maps characters to 6-bit values and regroups them into bytes. -/
def b64Decode (cs : List Char) : List Nat :=
  b64DecodeVals ((cs.filter (· ≠ '=')).map b64Val)

/-- The URI prefix of `playAudioOnMobile` (line 340). -/
def dataUriPrefix : List Char := "data:audio/wav;base64,".data

/-- The data URI `playAudioOnMobile` hands to `Audio.Sound.createAsync`
(lines 337-346): the fixed prefix followed by the base64 encoding of the
payload bytes — built the same way for every payload, WAV container or raw
PCM alike. -/
def playAudioOnMobileUri (audioData : List Nat) : List Char :=
  dataUriPrefix ++ b64EncodeBytes audioData

/-- `handleAudioResponse` on the native platform (lines 198-213): every
binary payload goes to `playAudioOnMobile` unchanged; the `isWavFile`
classification is only logged, it does not gate or alter this path. -/
def handleAudioResponseMobileUri (audioData : List Nat) : List Char :=
  playAudioOnMobileUri audioData

/-- No base64 output character is the padding character. -/
theorem b64Char_ne_pad (n : Nat) : b64Char n ≠ '=' := by
  rcases Nat.lt_or_ge n 64 with h | h
  · have hfin : ∀ k : Fin 64, b64Char k.val ≠ '=' := by decide
    exact hfin ⟨n, h⟩
  · have hlen : b64Alphabet.length = 64 := by decide
    rw [b64Char, List.getD_eq_default _ _ (by omega)]
    decide

/-- Decoding inverts the alphabet on 6-bit values. -/
theorem b64Val_b64Char (n : Nat) (h : n < 64) : b64Val (b64Char n) = n := by
  have hfin : ∀ k : Fin 64, b64Val (b64Char k.val) = k.val := by decide
  exact hfin ⟨n, h⟩

theorem filter_ne_pad_cons (c : Char) (hc : c ≠ '=') (l : List Char) :
    (c :: l).filter (· ≠ '=') = c :: l.filter (· ≠ '=') := by
  simp [hc]

theorem filter_pad_cons (l : List Char) :
    ('=' :: l).filter (· ≠ '=') = l.filter (· ≠ '=') := by
  simp

/-- Base64 round trip: decoding the encoding of any byte list recovers it. -/
theorem b64_roundtrip : ∀ (bs : List Nat), (∀ b ∈ bs, b < 256) →
    b64Decode (b64EncodeBytes bs) = bs
  | [], _ => rfl
  | [b1], h => by
    have hb1 : b1 < 256 := h b1 (by simp)
    rw [b64EncodeBytes, b64Decode,
      filter_ne_pad_cons _ (b64Char_ne_pad _), filter_ne_pad_cons _ (b64Char_ne_pad _),
      filter_pad_cons, filter_pad_cons]
    rw [show List.filter (fun c => c ≠ '=') ([] : List Char) = [] from rfl]
    rw [List.map_cons, List.map_cons, List.map_nil,
      b64Val_b64Char _ (by omega), b64Val_b64Char _ (by omega)]
    rw [b64DecodeVals]
    simp only [List.cons.injEq, and_true]
    omega
  | [b1, b2], h => by
    have hb1 : b1 < 256 := h b1 (by simp)
    have hb2 : b2 < 256 := h b2 (by simp)
    rw [b64EncodeBytes, b64Decode,
      filter_ne_pad_cons _ (b64Char_ne_pad _), filter_ne_pad_cons _ (b64Char_ne_pad _),
      filter_ne_pad_cons _ (b64Char_ne_pad _), filter_pad_cons]
    rw [show List.filter (fun c => c ≠ '=') ([] : List Char) = [] from rfl]
    rw [List.map_cons, List.map_cons, List.map_cons, List.map_nil,
      b64Val_b64Char _ (by omega), b64Val_b64Char _ (by omega),
      b64Val_b64Char _ (by omega)]
    rw [b64DecodeVals]
    simp only [List.cons.injEq, and_true]
    omega
  | b1 :: b2 :: b3 :: rest, h => by
    have hb1 : b1 < 256 := h b1 (by simp)
    have hb2 : b2 < 256 := h b2 (by simp)
    have hb3 : b3 < 256 := h b3 (by simp)
    have ih := b64_roundtrip rest (fun x hx => h x (by simp [hx]))
    rw [b64Decode] at ih
    rw [show b64EncodeBytes (b1 :: b2 :: b3 :: rest) =
      b64Char (b1 / 4) :: b64Char (b1 % 4 * 16 + b2 / 16) ::
      b64Char (b2 % 16 * 4 + b3 / 64) :: b64Char (b3 % 64) ::
      b64EncodeBytes rest from rfl]
    rw [b64Decode,
      filter_ne_pad_cons _ (b64Char_ne_pad _), filter_ne_pad_cons _ (b64Char_ne_pad _),
      filter_ne_pad_cons _ (b64Char_ne_pad _), filter_ne_pad_cons _ (b64Char_ne_pad _)]
    rw [List.map_cons, List.map_cons, List.map_cons, List.map_cons,
      b64Val_b64Char _ (by omega), b64Val_b64Char _ (by omega),
      b64Val_b64Char _ (by omega), b64Val_b64Char _ (by omega)]
    rw [b64DecodeVals]
    rw [ih]
    simp only [List.cons.injEq]
    refine ⟨by omega, by omega, by omega, trivial⟩

/-- C10: on the native platform every binary payload — WAV container or raw
PCM alike — becomes the data URI `"data:audio/wav;base64," ++ base64(bytes)`,
base64-decoding the URI's payload recovers exactly the original bytes, and
the handler performs no container detection or PCM decoding on this path
(the URI is the same function of the raw bytes for every payload). -/
theorem claim_C10_mobile_data_uri (bytes : List Nat)
    (h : ∀ b ∈ bytes, b < 256) :
    playAudioOnMobileUri bytes = dataUriPrefix ++ b64EncodeBytes bytes ∧
    b64Decode (List.drop 22 (playAudioOnMobileUri bytes)) = bytes ∧
    handleAudioResponseMobileUri bytes = playAudioOnMobileUri bytes := by
  refine ⟨rfl, ?_, rfl⟩
  rw [playAudioOnMobileUri, show (22 : Nat) = dataUriPrefix.length from rfl,
    List.drop_left]
  exact b64_roundtrip bytes h

/-- Witness for C10 at a concrete 7-byte payload (exercising the padded
tail): the URI round-trips to the original bytes. -/
theorem claim_C10_mobile_data_uri_witness :
    playAudioOnMobileUri [82, 73, 70, 70, 0, 255, 1] =
      dataUriPrefix ++ b64EncodeBytes [82, 73, 70, 70, 0, 255, 1] ∧
    b64Decode (List.drop 22 (playAudioOnMobileUri [82, 73, 70, 70, 0, 255, 1])) =
      [82, 73, 70, 70, 0, 255, 1] ∧
    handleAudioResponseMobileUri [82, 73, 70, 70, 0, 255, 1] =
      playAudioOnMobileUri [82, 73, 70, 70, 0, 255, 1] :=
  claim_C10_mobile_data_uri [82, 73, 70, 70, 0, 255, 1] (by decide)

end Sous
